import Mathlib

/-!
Formal model of the process subsystem of a small x86-64 teaching OS
(UEFI-booted kernel).  The definitions below are shallow embeddings of the
kernel sources: the per-process heap (`pkg/kernel/src/proc/vm/heap.rs`), the
per-process stack (`pkg/kernel/src/proc/vm/stack.rs`), the process structure
and fork (`pkg/kernel/src/proc/process.rs`), the process manager
(`pkg/kernel/src/proc/manager.rs`), the syscall-facing entry points
(`pkg/kernel/src/proc/mod.rs`) and the time service
(`pkg/kernel/src/interrupt/syscall/service.rs`).

Machine integers (u64, u16, usize) are modelled as `Nat` with explicit
modular arithmetic where wrap-around matters; `isize` values are `Int`.
Fallible page-mapper calls are modelled by an oracle recording, per call
site, whether `elf::map_pages` / `elf::unmap_pages` succeeds.  A Rust
`panic!` / `unwrap` failure is modelled as `none` (or a dedicated result
constructor) so that panics are distinguishable from ordinary returns.
-/

namespace YSOS

/-! ## Constants (heap.rs, stack.rs, mod.rs) -/

def PAGE_SIZE : Nat := 4096

def HEAP_START : Nat := 0x200000000000

def HEAP_PAGES : Nat := 0x100000

def HEAP_SIZE : Nat := HEAP_PAGES * PAGE_SIZE

def HEAP_END : Nat := HEAP_START + HEAP_SIZE - 8

def STACK_MAX : Nat := 0x400000000000

def STACK_MAX_PAGES : Nat := 0x100000

def STACK_MAX_SIZE : Nat := STACK_MAX_PAGES * PAGE_SIZE

def STACK_DEF_PAGE : Nat := 1

def STACK_DEF_SIZE : Nat := STACK_DEF_PAGE * PAGE_SIZE

def KERNEL_PID : Nat := 1

/-- `addr & STACK_START_MASK` where `STACK_START_MASK = !(STACK_MAX_SIZE - 1)`.
`STACK_MAX_SIZE` is a power of two, so masking clears the address bits below
it: the result is `addr` rounded down to a multiple of `STACK_MAX_SIZE`. -/
def andStackStartMask (addr : Nat) : Nat :=
  addr / STACK_MAX_SIZE * STACK_MAX_SIZE

/-- Cast `isize` to `usize` (as in `ret as usize`): two's-complement
wrap-around modulo 2^64. -/
def intToUsize (i : Int) : Nat :=
  (i % (2 ^ 64 : Int)).toNat

/-! ## Page-mapper oracle

`Heap::brk`, `Stack::grow_stack`, `ProcessInner::init_child_stack` etc. call
the collaborating page mapper (`elf::map_pages` / `elf::unmap_pages`), which
can fail (frame exhaustion, already-mapped page).  The oracle records the
outcome of such a call from its start address and page count. -/

structure MapOracle where
  mapOk : Nat → Nat → Bool
  unmapOk : Nat → Nat → Bool

def MapOracle.allOk : MapOracle :=
  ⟨fun _ _ => true, fun _ _ => true⟩

/-! ## Heap (vm/heap.rs)

`Heap` holds the immutable `base` and the atomically updated current `end`
(the field is called `endAddr` here because `end` is reserved in Lean). -/

structure Heap where
  base : Nat
  endAddr : Nat
deriving DecidableEq, Repr

def Heap.empty : Heap :=
  ⟨HEAP_START, HEAP_START⟩

/-- `Heap::memory_usage`: `end - base` (u64 subtraction; `end ≥ base` in all
states the kernel constructs). -/
def Heap.memoryUsage (h : Heap) : Nat :=
  h.endAddr - h.base

/-- `Heap::clean_up` (heap.rs 111-131).  If there is no usage it is a no-op;
otherwise the stored end is swapped to `base` FIRST and the heap pages are
unmapped afterwards, so a failing unmap leaves `end` already reset.
`pages` is `Page::containing_address(origin_end) - Page::containing_address(base)`. -/
def Heap.cleanUp (h : Heap) (o : MapOracle) : Bool × Heap :=
  if h.memoryUsage = 0 then (true, h)
  else
    let originEnd := h.endAddr
    let h2 : Heap := { h with endAddr := h.base }
    let pages := originEnd / PAGE_SIZE - h.base / PAGE_SIZE
    if originEnd = h.base then (true, h2)
    else if o.unmapOk h.base pages then (true, h2)
    else (false, h2)

/-- `Heap::brk` (heap.rs 51-109).  Returns the syscall result
(`None` models the Rust `None`, i.e. failure / the −1 seen by userspace)
together with the heap state afterwards.

* `upperBound` is `(now_end + 8) & !0xfff`;
* `newUpperBound` is `(Page::containing_address(new_end) + 1).start_address()`,
  i.e. the start of the page after the one holding `new_end`;
* in the branch where the two bounds are equal the source returns
  `Some(now_end)` and does not touch the stored end. -/
def Heap.brk (h : Heap) (addr : Option Nat) (o : MapOracle) : Option Nat × Heap :=
  let nowEnd := h.endAddr
  let upperBound := (nowEnd + 8) / PAGE_SIZE * PAGE_SIZE
  match addr with
  | some newEnd =>
    if HEAP_START ≤ newEnd ∧ newEnd ≤ HEAP_END then
      let newUpperBound := (newEnd / PAGE_SIZE + 1) * PAGE_SIZE
      if newEnd = h.base then
        match h.cleanUp o with
        | (true, h2) => (some h.base, h2)
        | (false, h2) => (none, h2)
      else if newUpperBound = upperBound then
        (some nowEnd, h)
      else if upperBound < newUpperBound then
        let pages := (newUpperBound - upperBound) / PAGE_SIZE
        if o.mapOk upperBound pages then
          (some newEnd, { h with endAddr := newEnd })
        else (none, h)
      else
        let pages := (upperBound - newUpperBound) / PAGE_SIZE
        if o.unmapOk newUpperBound pages then
          (some newEnd, { h with endAddr := newEnd })
        else (none, h)
    else (none, h)
  | none => (some nowEnd, h)

/-! ## Stack (vm/stack.rs)

The page range `[rangeStart, rangeEnd)` is kept as the two page start
addresses (`range.start.start_address()` / `range.end.start_address()`). -/

structure Stack where
  rangeStart : Nat
  rangeEnd : Nat
  usage : Nat
deriving DecidableEq, Repr

/-- `Stack::is_on_stack` (stack.rs 131-137): the faulting address and the
current stack bottom agree after masking with `STACK_START_MASK`, i.e. they
lie in the same pid-sized stack slot. -/
def Stack.isOnStack (s : Stack) (addr : Nat) : Bool :=
  andStackStartMask addr = andStackStartMask s.rangeStart

/-- `Stack::grow_stack` (stack.rs 139-175): map the pages from the page of
`addr` up to the current bottom, then extend the recorded range downward.
The map failure is reported to the caller (`Err`). -/
def Stack.growStack (s : Stack) (addr : Nat) (o : MapOracle) : Option Stack :=
  let newStart := addr / PAGE_SIZE * PAGE_SIZE
  let pageCount := (s.rangeStart - newStart) / PAGE_SIZE
  if o.mapOk newStart pageCount then
    some { s with rangeStart := newStart, usage := (s.rangeEnd - newStart) / PAGE_SIZE }
  else none

/-- `Stack::handle_page_fault` (stack.rs 113-129): `false` when the address is
outside the slot, `false` when `grow_stack` fails, `true` otherwise. -/
def Stack.handlePageFault (s : Stack) (addr : Nat) (o : MapOracle) : Bool × Stack :=
  if ¬ s.isOnStack addr then (false, s)
  else
    match s.growStack addr o with
    | none => (false, s)
    | some s2 => (true, s2)

/-! ## Process data and process structure (data.rs, process.rs) -/

inductive ProgramStatus
  | Running
  | Ready
  | Blocked
  | Dead
deriving DecidableEq, Repr

/-- Modelled from the spec: the saved register frame type
(`proc/context.rs`, referenced by `mod context` in proc/mod.rs) is not under
src/.  Per the spec it holds the return register (first return register,
`rax`), the saved stack pointer, and the remaining saved registers
(abstracted into one field here); `set_rax` writes the return register,
`update_stack_frame` writes the stack pointer, `stack_top` reads it, and
`save` / `restore` copy the whole frame. -/
structure ProcessContext where
  rax : Nat
  rsp : Nat
  rest : Nat
deriving DecidableEq, Repr

def ProcessContext.setRax (c : ProcessContext) (v : Nat) : ProcessContext :=
  { c with rax := v }

def ProcessContext.stackTop (c : ProcessContext) : Nat :=
  c.rsp

def ProcessContext.updateStackFrame (c : ProcessContext) (v : Nat) : ProcessContext :=
  { c with rsp := v }

/-- `PageTableContext` (proc/paging.rs is not under src/; only its uses are).
Modelled from the spec: it owns a root page-table frame; `fork` produces a
context with a fresh root, `clone_l4` an alias of the same root.  Claims here
only need the root as an abstract token. -/
structure PageTableContext where
  root : Nat
deriving DecidableEq, Repr

/-- A keyed counting semaphore (proc/sync.rs is not under src/).
Modelled from the spec: `count` is a signed counter, `waiters` a FIFO queue
of pids. -/
structure Semaphore where
  count : Int
  waiters : List Nat
deriving DecidableEq, Repr

/-- `ProcessData` (data.rs) together with the stack bookkeeping used by
process.rs and manager.rs (`stack_segment`, `set_stack`), whose defining
variant of data.rs is not under src/; modelled from the spec, `stack_segment`
is the page range `[start, end)` of the user stack as page indices.
File-handle resources are abstracted to their fd numbers. -/
structure ProcessData where
  env : List (String × String)
  resources : List Nat
  code_segment_pages : Nat
  semaphores : List (Nat × Semaphore)
  stack_segment : Option (Nat × Nat)
deriving DecidableEq, Repr

/-- `ProcessData::set_stack` of the non-vm variant: record the page range
starting at the page of `bottom`, `pageNum` pages long. -/
def ProcessData.setStack (pd : ProcessData) (bottom pageNum : Nat) : ProcessData :=
  { pd with stack_segment := some (bottom / PAGE_SIZE, bottom / PAGE_SIZE + pageNum) }

/-- `ProcessInner` (process.rs 25-35).  The weak parent reference and the
strong children references are modelled by pids. -/
structure ProcessInner where
  name : String
  parent : Option Nat
  children : List Nat
  ticks_passed : Nat
  status : ProgramStatus
  exit_code : Option Int
  context : ProcessContext
  page_table : Option PageTableContext
  proc_data : Option ProcessData
deriving DecidableEq, Repr

def ProcessInner.isReady (p : ProcessInner) : Bool :=
  p.status = ProgramStatus.Ready

/-- `ProcessInner::kill` (process.rs 259-273): record the exit code, set the
status to Dead, unmap the stack range of `proc_data.stack_segment` through the
page table, and drop the page table (`page_table.take()`).  The three
`unwrap`s on `proc_data`, `stack_segment` and `page_table` are panics
(`none`).  `proc_data` itself is NOT taken: it stays in place. -/
def ProcessInner.kill (p : ProcessInner) (ret : Int) : Option ProcessInner :=
  match p.proc_data with
  | none => none
  | some pd =>
    match pd.stack_segment with
    | none => none
    | some _stack =>
      match p.page_table with
      | none => none
      | some _pt =>
        some { p with exit_code := some ret, status := ProgramStatus.Dead,
                      page_table := none }

/-- `ProcessInner::save` (process.rs 217-223): copy the frame and pause,
unless the process is already Dead. -/
def ProcessInner.save (p : ProcessInner) (ctx : ProcessContext) : ProcessInner :=
  if p.status ≠ ProgramStatus.Dead then
    { p with context := ctx, status := ProgramStatus.Ready }
  else p

/-! ## Fork (process.rs 141-167, 299-331, 378-407) -/

/-- The probe loop of `ProcessInner::init_child_stack` (process.rs 311-322):
try to map `count` pages at `bottom`; on failure move one whole stack slot
down (`child_stack_bottom -= STACK_MAX_SIZE`) and retry.  The source loops
unboundedly; `fuel` bounds the recursion, `none` meaning the loop was still
running after `fuel` probes. -/
def probeStackBottom (o : MapOracle) (count : Nat) : Nat → Nat → Option Nat
  | _bottom, 0 => none
  | bottom, fuel + 1 =>
    if o.mapOk bottom count then some bottom
    else probeStackBottom o count (bottom - STACK_MAX_SIZE) fuel

/-- `ProcessInner::init_child_stack` (process.rs 299-331).  `parentPid` is the
pid of the upgraded weak parent reference.  The first candidate bottom is
`STACK_MAX - (count - 1) * STACK_MAX_SIZE - STACK_DEF_SIZE` with
`count = parent.pid + children.len()`; the stack contents are then
byte-copied into the child slot (raw memory, not modelled).  Returns the
child stack bottom address and its page count. -/
def ProcessInner.initChildStack (p : ProcessInner) (parentPid : Nat)
    (o : MapOracle) (fuel : Nat) : Option (Nat × Nat) := do
  let pd ← p.proc_data
  let parentStack ← pd.stack_segment
  let count := parentPid + p.children.length
  let firstBottom := STACK_MAX - (count - 1) * STACK_MAX_SIZE - STACK_DEF_SIZE
  let childStackCount := parentStack.2 - parentStack.1
  let bottom ← probeStackBottom o childStackCount firstBottom fuel
  some (bottom, childStackCount)

/-- The child stack-pointer computation of `ProcessInner::fork`
(process.rs 389-390):
`(self.context.stack_top() & 0xFFFFFFFF) | (child_stack_bottom & !(0xFFFFFFFF))`.
The two operands occupy disjoint bit positions (bits 0-31 and bits 32-63),
so the bitwise or equals the sum written here. -/
def childStackTop (parentSp childBottom : Nat) : Nat :=
  parentSp % 2 ^ 32 + childBottom / 2 ^ 32 * 2 ^ 32

/-- `ProcessInner::fork` (process.rs 378-407): clone the process data, fork
the page table (fresh root, modelled as a distinct token), allocate and map
the child stack, relocate the saved stack pointer into the child slot, set
the child's return register to 0, and build the child's inner state.
Returns the child inner together with the child stack bottom and count. -/
def ProcessInner.forkInner (p : ProcessInner) (parentPid : Nat)
    (o : MapOracle) (fuel : Nat) : Option (ProcessInner × Nat × Nat) := do
  let childProcData ← p.proc_data
  let pt ← p.page_table
  let childPageTable : PageTableContext := ⟨pt.root + 1⟩
  let (childBottom, childCount) ← p.initChildStack parentPid o fuel
  let top := childStackTop p.context.stackTop childBottom
  let childContext := (p.context.updateStackFrame top).setRax 0
  let childProcData := childProcData.setStack childBottom childCount
  some ({ name := p.name
          parent := some parentPid
          children := []
          ticks_passed := 0
          status := ProgramStatus.Ready
          exit_code := none
          context := childContext
          page_table := some childPageTable
          proc_data := some childProcData },
        childBottom, childCount)

/-- `Process::fork` (process.rs 141-167): allocate the child pid, run the
inner fork, record the child in the parent's children list, set the parent's
return register to the child pid, and mark the child Ready (`pause`; it is
constructed Ready already).  Returns the updated parent inner and the child
inner. -/
def processFork (parentPid : Nat) (p : ProcessInner) (childPid : Nat)
    (o : MapOracle) (fuel : Nat) : Option (ProcessInner × ProcessInner) := do
  let (childInner, _bottom, _count) ← p.forkInner parentPid o fuel
  let p2 := { p with children := p.children ++ [childPid],
                     context := p.context.setRax childPid }
  some (p2, { childInner with status := ProgramStatus.Ready })

/-! ## Process manager (manager.rs, processor current pid, mod.rs) -/

/-- `ProcessManager` (manager.rs 29-34) together with the processor-local
current pid (`processor::get_pid` / `set_pid`) and the monotonic pid counter
behind `ProcessId::new`.  `processes` is the pid-keyed map, `ready_queue` a
FIFO with its front at the head of the list, `waiting_processes` maps a pid
to the set of pids blocked waiting for its exit. -/
structure ProcessManager where
  processes : List (Nat × ProcessInner)
  ready_queue : List Nat
  waiting_processes : List (Nat × List Nat)
  current_pid : Nat
  next_pid : Nat
deriving DecidableEq, Repr

/-- Update the value stored for `pid` in a pid-keyed association list
(the effect of mutating through the `RwLock<ProcessInner>` of an existing
entry; on an absent key nothing changes). -/
def updateProc : List (Nat × ProcessInner) → Nat → ProcessInner →
    List (Nat × ProcessInner)
  | [], _, _ => []
  | (k, v) :: rest, pid, p =>
    (if k = pid then (pid, p) else (k, v)) :: updateProc rest pid p

/-- `BTreeMap::insert` for the processes map (`add_proc`). -/
def insertProc (ps : List (Nat × ProcessInner)) (pid : Nat) (p : ProcessInner) :
    List (Nat × ProcessInner) :=
  match ps.lookup pid with
  | some _ => updateProc ps pid p
  | none => ps ++ [(pid, p)]

/-- `ProcessManager::push_ready` (manager.rs 55-57). -/
def ProcessManager.pushReady (m : ProcessManager) (pid : Nat) : ProcessManager :=
  { m with ready_queue := m.ready_queue ++ [pid] }

/-- `ProcessManager::get_proc` (manager.rs 74-76). -/
def ProcessManager.getProc (m : ProcessManager) (pid : Nat) : Option ProcessInner :=
  m.processes.lookup pid

/-- `ProcessManager::wake_up` (manager.rs 87-90):
`get_proc(&pid).unwrap().write().pause()` (panic when the pid is absent),
then push the pid on the ready queue.  No status check at all: whatever the
process's status was - Blocked, Dead, ... - it becomes Ready and is
enqueued. -/
def ProcessManager.wakeUp (m : ProcessManager) (pid : Nat) : Option ProcessManager :=
  match m.getProc pid with
  | none => none
  | some p =>
    some (({ m with
             processes := updateProc m.processes pid
               { p with status := ProgramStatus.Ready } }).pushReady pid)

/-- The loop body of `ProcessManager::wake_waiting` (manager.rs 96-103): for
each pid of the removed waiter set, write `ret` into its saved return
register and `wake_up` it. -/
def wakeAll (ret : Int) : List Nat → ProcessManager → Option ProcessManager
  | [], m => some m
  | pid :: rest, m =>
    match m.getProc pid with
    | none => none
    | some p =>
      let m2 := { m with
                  processes := updateProc m.processes pid
                    { p with context := p.context.setRax (intToUsize ret) } }
      match m2.wakeUp pid with
      | none => none
      | some m3 => wakeAll ret rest m3

/-- `ProcessManager::wake_waiting` (manager.rs 92-105): remove the current
pid's entry from the waiters map and wake every pid of its set. -/
def ProcessManager.wakeWaiting (m : ProcessManager) (ret : Int) : Option ProcessManager :=
  match m.waiting_processes.lookup m.current_pid with
  | none => some m
  | some waitSet =>
    let m2 := { m with
                waiting_processes :=
                  m.waiting_processes.filter fun kv => kv.1 ≠ m.current_pid }
    wakeAll ret waitSet m2

/-- `ProcessManager::kill` (manager.rs 207-225): absent pid or already-Dead
process is a warning and a no-op; otherwise `Process::kill` runs on the
process (stack unmap + page-table drop; a panic inside is `none`).  The ready
queue and the waiters map are not touched. -/
def ProcessManager.kill (m : ProcessManager) (pid : Nat) (ret : Int) :
    Option ProcessManager :=
  match m.getProc pid with
  | none => some m
  | some p =>
    if p.status = ProgramStatus.Dead then some m
    else
      match p.kill ret with
      | none => none
      | some p2 => some { m with processes := updateProc m.processes pid p2 }

/-- `ProcessManager::is_proc_alive` (manager.rs 255-261). -/
def ProcessManager.isProcAlive (m : ProcessManager) (pid : Nat) : Bool :=
  match m.getProc pid with
  | some p => p.status ≠ ProgramStatus.Dead
  | none => false

/-- `ProcessManager::get_exit_code` (manager.rs 107-109):
`get_proc(&pid).unwrap()` panics (`none`) when the pid is not in the
processes map; otherwise the process's `exit_code` field is returned. -/
def ProcessManager.getExitCode (m : ProcessManager) (pid : Nat) :
    Option (Option Int) :=
  match m.getProc pid with
  | none => none
  | some p => some p.exit_code

/-- `ProcessManager::block_proc` (manager.rs 79-81):
`get_proc(pid).unwrap().write().block()`. -/
def ProcessManager.blockProc (m : ProcessManager) (pid : Nat) :
    Option ProcessManager :=
  match m.getProc pid with
  | none => none
  | some p =>
    some { m with processes := updateProc m.processes pid
                    { p with status := ProgramStatus.Blocked } }

/-- `ProcessManager::add_waiting` (manager.rs 60-66): insert the current pid
into the waiter set of `pid` (creating the entry when absent). -/
def ProcessManager.addWaiting (m : ProcessManager) (pid : Nat) : ProcessManager :=
  match m.waiting_processes.lookup pid with
  | none =>
    { m with waiting_processes := m.waiting_processes ++ [(pid, [m.current_pid])] }
  | some ws =>
    if m.current_pid ∈ ws then m
    else
      { m with waiting_processes :=
          m.waiting_processes.map fun kv =>
            if kv.1 = pid then (pid, kv.2 ++ [m.current_pid]) else kv }

/-- `ProcessManager::save_current` (manager.rs 156-166): tick the current
process, save the interrupt frame into it (`ProcessInner::save`, which also
pauses a non-Dead process), and return the current pid.  `current()` panics
(`none`) if the current pid is not in the map. -/
def ProcessManager.saveCurrent (m : ProcessManager) (ctx : ProcessContext) :
    Option (Nat × ProcessManager) :=
  match m.getProc m.current_pid with
  | none => none
  | some p =>
    let p2 := ProcessInner.save { p with ticks_passed := p.ticks_passed + 1 } ctx
    some (m.current_pid,
          { m with processes := updateProc m.processes m.current_pid p2 })

/-- Result of `switch_next`: a Rust panic (an `unwrap` of `None`), running
out of fuel while the source loop is still spinning, or a successful switch
delivering the chosen pid, the new manager state and the restored frame. -/
inductive SwitchResult
  | panicked
  | outOfFuel
  | ok (pid : Nat) (m : ProcessManager) (ctx : ProcessContext)
deriving DecidableEq, Repr

/-- The body of `ProcessManager::switch_next` (manager.rs 168-184).  The
source pops the front of the ready queue with `.unwrap()` (a panic on an
empty queue, both for the first pop and for the pops inside the loop), looks
the pid up with `.unwrap()`, and while the popped process is not Ready pushes
it BACK onto the queue and pops again.  On a Ready pid it restores: `resume`
(status Running), copy the saved frame out, load the page table
(`page_table.as_ref().unwrap().load()`, a panic when absent), and set the
processor's current pid.  Each fuel step is one pop. -/
def switchNextGo : Nat → ProcessManager → ProcessContext → SwitchResult
  | 0, _, _ => SwitchResult.outOfFuel
  | fuel + 1, m, ctx =>
    match m.ready_queue with
    | [] => SwitchResult.panicked
    | pid :: restQueue =>
      let m2 := { m with ready_queue := restQueue }
      match m2.getProc pid with
      | none => SwitchResult.panicked
      | some p =>
        if p.isReady then
          match p.page_table with
          | none => SwitchResult.panicked
          | some _ =>
            SwitchResult.ok pid
              { m2 with
                processes := updateProc m2.processes pid
                  { p with status := ProgramStatus.Running }
                current_pid := pid }
              p.context
        else switchNextGo fuel (m2.pushReady pid) ctx

/-- `ProcessManager::switch_next` (manager.rs 168-184). -/
def ProcessManager.switchNext (m : ProcessManager) (ctx : ProcessContext)
    (fuel : Nat) : SwitchResult :=
  switchNextGo fuel m ctx

/-- Result of a blocking syscall entry point (`wait_pid`): panic, fuel
exhaustion inside `switch_next`, or a new state plus outgoing frame. -/
inductive KernResult
  | panicked
  | outOfFuel
  | ok (m : ProcessManager) (ctx : ProcessContext)
deriving DecidableEq, Repr

/-- `proc::wait_pid` (mod.rs 219-233).  When the target is still alive the
caller is saved, blocked, recorded in the waiters map and the scheduler picks
the next process; when it is not alive
`get_process_manager().get_exit_code(pid).unwrap()` runs: `get_exit_code`
itself `unwrap`s the process lookup (a panic when the pid is absent from the
map - `is_proc_alive` returned false for the absent pid) and the outer
`.unwrap()` panics when the exit code is `None`. -/
def waitPid (m : ProcessManager) (pid : Nat) (ctx : ProcessContext)
    (fuel : Nat) : KernResult :=
  if m.isProcAlive pid then
    match m.saveCurrent ctx with
    | none => KernResult.panicked
    | some (nowPid, m1) =>
      match m1.blockProc nowPid with
      | none => KernResult.panicked
      | some m2 =>
        let m3 := m2.addWaiting pid
        match m3.switchNext ctx fuel with
        | SwitchResult.panicked => KernResult.panicked
        | SwitchResult.outOfFuel => KernResult.outOfFuel
        | SwitchResult.ok _ m4 ctx2 => KernResult.ok m4 ctx2
  else
    match m.getExitCode pid with
    | none => KernResult.panicked
    | some none => KernResult.panicked
    | some (some code) => KernResult.ok m (ctx.setRax (intToUsize code))

/-- `ProcessManager::fork` (manager.rs 263-274) with the pid allocation of
`Process::fork`: run the fork on the current process and insert the child
into the processes map.  The ready queue is untouched here.  Returns the new
state and the child pid. -/
def ProcessManager.managerFork (m : ProcessManager) (o : MapOracle)
    (fuel : Nat) : Option (ProcessManager × Nat) := do
  let p ← m.getProc m.current_pid
  let childPid := m.next_pid
  let (p2, child) ← processFork m.current_pid p childPid o fuel
  let m2 := { m with
              processes := updateProc m.processes m.current_pid p2
              next_pid := m.next_pid + 1 }
  some ({ m2 with processes := insertProc m2.processes childPid child }, childPid)

/-- The Fork syscall up to (not including) its final `switch_next`
(mod.rs 190-204): `save_current` on the parent, `ProcessManager::fork`,
then `push_ready(child)` and `push_ready(parent)`.  Returns the state handed
to `switch_next` together with the parent and child pids. -/
def forkPrepare (m : ProcessManager) (ctx : ProcessContext) (o : MapOracle)
    (fuel : Nat) : Option (ProcessManager × Nat × Nat) := do
  let (pid, m1) ← m.saveCurrent ctx
  let (m2, childPid) ← m1.managerFork o fuel
  some (((m2.pushReady childPid).pushReady pid, pid, childPid))

/-- `proc::fork` (mod.rs 190-204): `forkPrepare` followed by `switch_next`. -/
def forkSyscall (m : ProcessManager) (ctx : ProcessContext) (o : MapOracle)
    (fuel sfuel : Nat) : KernResult :=
  match forkPrepare m ctx o fuel with
  | none => KernResult.panicked
  | some (m3, _pid, _childPid) =>
    match m3.switchNext ctx sfuel with
    | SwitchResult.panicked => KernResult.panicked
    | SwitchResult.outOfFuel => KernResult.outOfFuel
    | SwitchResult.ok _ m4 ctx2 => KernResult.ok m4 ctx2

/-! ## Page-fault handling at the manager level (manager.rs 190-201,
process.rs 107-139) -/

/-- `is_on_stack` of the non-vm `ProcessData` variant (its defining file is
not under src/; manager.rs 193 calls it on the current process).
Modelled from the spec: the fault address is on the stack when
`addr & STACK_START_MASK == stack_bottom & STACK_START_MASK`, the bottom
being the start address of the recorded stack segment. -/
def segIsOnStack (seg : Nat × Nat) (addr : Nat) : Bool :=
  andStackStartMask addr = andStackStartMask (seg.1 * PAGE_SIZE)

/-- `Process::enlarge_stack` (process.rs 116-139): compute the page gap
between the recorded stack bottom and the page of `addr`
(`cal_page_gap`, process.rs 107-110), recompute the bottom of the enlarged
stack from the pid, map the missing pages, and record the enlarged segment
via `set_stack`.  The `.expect("")` on `map_range` turns a map failure into a
kernel panic (`none`). -/
def enlargeStack (pid : Nat) (seg : Nat × Nat) (addr : Nat) (o : MapOracle) :
    Option (Nat × Nat) :=
  let newPageNum := seg.1 - addr / PAGE_SIZE
  let nowPageNum := seg.2 - seg.1
  let stackBottom :=
    STACK_MAX - (pid - 1) * STACK_MAX_SIZE - (newPageNum + nowPageNum) * PAGE_SIZE
  if o.mapOk stackBottom newPageNum then
    some (stackBottom / PAGE_SIZE, stackBottom / PAGE_SIZE + (nowPageNum + newPageNum))
  else none

/-- `ProcessManager::handle_page_fault` (manager.rs 190-201): `false` when
the address is off the current process's stack slot or the error code has the
PROTECTION_VIOLATION flag (`pv`); otherwise `enlarge_stack` runs and `true`
is returned.  Panics (`none`): an absent current process, a killed process's
empty `proc_data` (the `Deref` of ProcessInner), a missing stack segment, or
a map failure inside `enlarge_stack`. -/
def ProcessManager.handlePageFault (m : ProcessManager) (addr : Nat)
    (pv : Bool) (o : MapOracle) : Option (Bool × ProcessManager) :=
  match m.getProc m.current_pid with
  | none => none
  | some p =>
    match p.proc_data with
    | none => none
    | some pd =>
      match pd.stack_segment with
      | none => none
      | some seg =>
        if ¬ segIsOnStack seg addr ∨ pv then some (false, m)
        else
          match enlargeStack m.current_pid seg addr o with
          | none => none
          | some seg2 =>
            let p2 := { p with proc_data := some { pd with stack_segment := some seg2 } }
            some (true, { m with processes := updateProc m.processes m.current_pid p2 })

/-! ## Time syscall (interrupt/syscall/service.rs 112-116) -/

/-- `sys_time`: read the UEFI wall clock and return
`hour * 3600 + minute * 60 + second`. -/
def sysTime (hour minute second : Nat) : Nat :=
  hour * 3600 + minute * 60 + second

/-! ## Concrete sample states used by witnesses and counterexamples -/

/-- A saved frame of a user process of pid 2 (stack pointer at the top of
pid 2's stack slot). -/
def sampleContext : ProcessContext :=
  ⟨7, STACK_MAX - 2 ^ 32 - 8, 99⟩

/-- Process data of a user process of pid 2 with the default 1-page stack. -/
def samplePD : ProcessData :=
  { env := []
    resources := [0, 1, 2]
    code_segment_pages := 2
    semaphores := []
    stack_segment := some ((STACK_MAX - 2 ^ 32 - PAGE_SIZE) / PAGE_SIZE,
                           (STACK_MAX - 2 ^ 32 - PAGE_SIZE) / PAGE_SIZE + 1) }

/-- A live (Running) user process, pid 2. -/
def sampleProc : ProcessInner :=
  { name := "sh"
    parent := some 1
    children := []
    ticks_passed := 0
    status := ProgramStatus.Running
    exit_code := none
    context := sampleContext
    page_table := some ⟨5⟩
    proc_data := some samplePD }

/-- A process already killed: Dead, exit code recorded, page table dropped. -/
def deadProc : ProcessInner :=
  { name := "app"
    parent := some 1
    children := []
    ticks_passed := 3
    status := ProgramStatus.Dead
    exit_code := some 0
    context := ⟨0, 0, 0⟩
    page_table := none
    proc_data := some samplePD }

/-- The kernel process, pid 1. -/
def kernelProc : ProcessInner :=
  { name := "kernel"
    parent := none
    children := [2]
    ticks_passed := 0
    status := ProgramStatus.Running
    exit_code := none
    context := ⟨0, 0, 0⟩
    page_table := some ⟨1⟩
    proc_data := some samplePD }

/-- A mapper for which the first child-stack probe of a fork - at the slot
already occupied by the pid-2 parent's own stack - fails (as the real mapper
reports `PageAlreadyMapped` there), and every other mapping succeeds. -/
def collideOracle : MapOracle :=
  ⟨fun bottom _ => bottom != STACK_MAX - 2 ^ 32 - PAGE_SIZE, fun _ _ => true⟩

/-- The child produced by `sampleProc.forkInner 2 MapOracle.allOk 1`
(child stack mapped at the first probed bottom). -/
def sampleForkChild : ProcessInner :=
  { name := "sh"
    parent := some 2
    children := []
    ticks_passed := 0
    status := ProgramStatus.Ready
    exit_code := none
    context := ⟨0, 70364449210360, 99⟩
    page_table := some ⟨6⟩
    proc_data := some { env := []
                        resources := [0, 1, 2]
                        code_segment_pages := 2
                        semaphores := []
                        stack_segment := some (17178820607, 17178820608) } }

/-- The manager state after the Fork syscall of the pid-2 sample process has
run up to (not including) its final `switch_next`: the parent is saved and
Ready with return register 3, the child (pid 3) is Ready with return
register 0, and both are enqueued (child first). -/
def sampleForkManager : ProcessManager :=
  ⟨[(1, kernelProc),
    (2, { sampleProc with
          children := [3]
          ticks_passed := 1
          status := ProgramStatus.Ready
          context := ⟨3, STACK_MAX - 2 ^ 32 - 8, 99⟩ }),
    (3, sampleForkChild)],
   [3, 2], [], 2, 4⟩

/-! ## C1: brk round-trip -/

/-- Evaluating `brk(None)` returns the stored end and changes nothing. -/
theorem brk_none_eq (h : Heap) (o : MapOracle) :
    h.brk none o = (some h.endAddr, h) := rfl

/-- C1, counterexample.  The state with `end = HEAP_START + 4088` is produced
by `brk(Some(HEAP_START + 4088))` from the empty heap.  From it,
`brk(Some(HEAP_START + 16))` takes the equal-page-bound branch: it returns
`Some(now_end)` - a success - but does NOT update the stored end, so the
following `brk(None)` returns `HEAP_START + 4088`, not the requested
`HEAP_START + 16`. -/
theorem brk_roundtrip_cex :
    (Heap.empty.brk (some (HEAP_START + 4088)) MapOracle.allOk).2 =
      ⟨HEAP_START, HEAP_START + 4088⟩ ∧
    HEAP_START ≤ HEAP_START + 16 ∧ HEAP_START + 16 ≤ HEAP_END ∧
    ((⟨HEAP_START, HEAP_START + 4088⟩ : Heap).brk (some (HEAP_START + 16))
        MapOracle.allOk).1.isSome = true ∧
    (((⟨HEAP_START, HEAP_START + 4088⟩ : Heap).brk (some (HEAP_START + 16))
        MapOracle.allOk).2.brk none MapOracle.allOk).1 ≠ some (HEAP_START + 16) ∧
    ((⟨HEAP_START, HEAP_START + 4088⟩ : Heap).brk (some (HEAP_START + 16))
        MapOracle.allOk).2.endAddr ≠ HEAP_START + 16 := by
  decide

/-- C1, amended.  The round-trip does hold in every branch except the
equal-page-bound one: for `x` in `[HEAP_START, HEAP_END]`, when `x` is the
base or the page-rounded upper bound of `x` differs from that of the current
end (and the mapper succeeds), `brk(Some(x))` succeeds and a following
`brk(None)` returns `x`.  In the equal-bound branch `brk(Some(x))` instead
returns the unchanged current end. -/
theorem brk_roundtrip_amended (h : Heap) (x : Nat)
    (hbase : h.base = HEAP_START)
    (hle : h.base ≤ h.endAddr)
    (hlo : HEAP_START ≤ x) (hhi : x ≤ HEAP_END)
    (hcase : x = HEAP_START ∨
      (x / PAGE_SIZE + 1) * PAGE_SIZE ≠ (h.endAddr + 8) / PAGE_SIZE * PAGE_SIZE) :
    (h.brk (some x) MapOracle.allOk).1.isSome = true ∧
    ((h.brk (some x) MapOracle.allOk).2.brk none MapOracle.allOk).1 = some x := by
  have hbounds : HEAP_START ≤ x ∧ x ≤ HEAP_END := ⟨hlo, hhi⟩
  by_cases hxb : x = h.base
  · subst hxb
    unfold Heap.brk Heap.cleanUp Heap.memoryUsage
    simp only [if_pos hbounds, if_pos rfl, MapOracle.allOk]
    by_cases husage : h.endAddr - h.base = 0
    · have hEnd : h.endAddr = h.base := Nat.le_antisymm (by omega) hle
      simp [husage, hEnd]
    · have hne : ¬ h.endAddr = h.base := by omega
      simp [husage, hne]
  · have hdiff : (x / PAGE_SIZE + 1) * PAGE_SIZE ≠
        (h.endAddr + 8) / PAGE_SIZE * PAGE_SIZE := by
      rcases hcase with hcase | hcase
      · exact absurd (hcase.trans hbase.symm) hxb
      · exact hcase
    unfold Heap.brk
    simp only [if_pos hbounds, if_neg hxb, if_neg hdiff, MapOracle.allOk]
    rcases Nat.lt_or_ge ((h.endAddr + 8) / PAGE_SIZE * PAGE_SIZE)
        ((x / PAGE_SIZE + 1) * PAGE_SIZE) with hlt | hge
    · simp [if_pos hlt, brk_none_eq]
    · have hnlt : ¬ (h.endAddr + 8) / PAGE_SIZE * PAGE_SIZE <
          (x / PAGE_SIZE + 1) * PAGE_SIZE := by omega
      simp [if_neg hnlt, brk_none_eq]

/-- C1 witness: growing the empty heap to `HEAP_START + 4088` (a fresh page)
round-trips. -/
theorem brk_roundtrip_amended_witness :
    (Heap.empty.brk (some (HEAP_START + 4088)) MapOracle.allOk).1.isSome = true ∧
    ((Heap.empty.brk (some (HEAP_START + 4088))
        MapOracle.allOk).2.brk none MapOracle.allOk).1 = some (HEAP_START + 4088) :=
  brk_roundtrip_amended Heap.empty (HEAP_START + 4088) rfl (by decide)
    (by decide) (by decide) (Or.inr (by decide))

/-! ## C4: brk failure atomicity -/

/-- C4, counterexample.  The state with `end = HEAP_START + 4088` is produced
by `brk(Some(HEAP_START + 4088))` from the empty heap.  From it, with a
mapper whose unmap fails, `brk(Some(HEAP_START))` (i.e. `new_end == base`)
fails (returns `None`) - yet the stored end has been reset to the base,
because `clean_up` swaps the end to base BEFORE attempting the unmap. -/
theorem brk_failure_cex :
    (Heap.empty.brk (some (HEAP_START + 4088)) MapOracle.allOk).2 =
      ⟨HEAP_START, HEAP_START + 4088⟩ ∧
    ((⟨HEAP_START, HEAP_START + 4088⟩ : Heap).brk (some HEAP_START)
        ⟨fun _ _ => true, fun _ _ => false⟩).1 = none ∧
    ((⟨HEAP_START, HEAP_START + 4088⟩ : Heap).brk (some HEAP_START)
        ⟨fun _ _ => true, fun _ _ => false⟩).2.endAddr ≠
      (⟨HEAP_START, HEAP_START + 4088⟩ : Heap).endAddr := by
  decide

/-- C4, amended.  For `new_end ≠ base` (the grow and shrink branches and the
out-of-bounds case) a failing `brk` leaves the stored end unchanged; but in
the `new_end == base` branch the end is reset to base whether or not the
unmap inside `clean_up` succeeds, so a failure there leaves `end = base`,
not the previous end. -/
theorem brk_failure_atomic_amended (h : Heap) (x : Nat) (o : MapOracle)
    (hbase : h.base = HEAP_START) (hle : h.base ≤ h.endAddr) :
    (x ≠ h.base → (h.brk (some x) o).1 = none →
      (h.brk (some x) o).2.endAddr = h.endAddr) ∧
    (h.brk (some h.base) o).2.endAddr = h.base := by
  constructor
  · intro hxb
    unfold Heap.brk
    by_cases hbounds : HEAP_START ≤ x ∧ x ≤ HEAP_END
    · simp only [if_pos hbounds, if_neg hxb]
      by_cases heq : (x / PAGE_SIZE + 1) * PAGE_SIZE =
          (h.endAddr + 8) / PAGE_SIZE * PAGE_SIZE
      · rw [if_pos heq]; simp
      · simp only [if_neg heq]
        by_cases hlt : (h.endAddr + 8) / PAGE_SIZE * PAGE_SIZE <
            (x / PAGE_SIZE + 1) * PAGE_SIZE
        · simp only [if_pos hlt]
          by_cases hm : o.mapOk ((h.endAddr + 8) / PAGE_SIZE * PAGE_SIZE)
              (((x / PAGE_SIZE + 1) * PAGE_SIZE -
                (h.endAddr + 8) / PAGE_SIZE * PAGE_SIZE) / PAGE_SIZE) = true
          · simp [hm]
          · simp [hm]
        · simp only [if_neg hlt]
          by_cases hu : o.unmapOk ((x / PAGE_SIZE + 1) * PAGE_SIZE)
              (((h.endAddr + 8) / PAGE_SIZE * PAGE_SIZE -
                (x / PAGE_SIZE + 1) * PAGE_SIZE) / PAGE_SIZE) = true
          · simp [hu]
          · simp [hu]
    · simp [if_neg hbounds]
  · have hbounds : HEAP_START ≤ h.base ∧ h.base ≤ HEAP_END := by
      rw [hbase]; exact ⟨Nat.le_refl _, by decide⟩
    unfold Heap.brk Heap.cleanUp Heap.memoryUsage
    simp only [if_pos hbounds, if_pos rfl]
    by_cases husage : h.endAddr - h.base = 0
    · have hEnd : h.endAddr = h.base := Nat.le_antisymm (by omega) hle
      simp [husage, hEnd]
    · have hne : ¬ h.endAddr = h.base := by omega
      by_cases hu : o.unmapOk h.base
          (h.endAddr / PAGE_SIZE - h.base / PAGE_SIZE) = true
      · simp [husage, hne, hu]
      · simp [husage, hne, hu]

/-- C4 witness: from the heap with end `HEAP_START + 4088` and a failing
mapper, a growing `brk(Some(HEAP_START + 8192))` fails and leaves the end
unchanged; and the base-reset conjunct holds on the same state. -/
theorem brk_failure_atomic_amended_witness :
    (HEAP_START + 8192 ≠ (⟨HEAP_START, HEAP_START + 4088⟩ : Heap).base →
      ((⟨HEAP_START, HEAP_START + 4088⟩ : Heap).brk (some (HEAP_START + 8192))
        ⟨fun _ _ => false, fun _ _ => false⟩).1 = none →
      ((⟨HEAP_START, HEAP_START + 4088⟩ : Heap).brk (some (HEAP_START + 8192))
        ⟨fun _ _ => false, fun _ _ => false⟩).2.endAddr =
        (⟨HEAP_START, HEAP_START + 4088⟩ : Heap).endAddr) ∧
    ((⟨HEAP_START, HEAP_START + 4088⟩ : Heap).brk
        (some (⟨HEAP_START, HEAP_START + 4088⟩ : Heap).base)
        ⟨fun _ _ => false, fun _ _ => false⟩).2.endAddr =
      (⟨HEAP_START, HEAP_START + 4088⟩ : Heap).base :=
  brk_failure_atomic_amended ⟨HEAP_START, HEAP_START + 4088⟩ (HEAP_START + 8192)
    ⟨fun _ _ => false, fun _ _ => false⟩ rfl (by decide)

/-! ## C8: switch_next on an empty ready queue -/

/-- C8: whenever the ready queue is empty, `switch_next` hits the
`pop_front().unwrap()` and panics, for every state, frame and (positive)
fuel; callers must have enqueued at least one pid. -/
theorem switch_next_empty_queue_panics (m : ProcessManager)
    (ctx : ProcessContext) (fuel : Nat) (hq : m.ready_queue = []) :
    m.switchNext ctx (fuel + 1) = SwitchResult.panicked := by
  unfold ProcessManager.switchNext switchNextGo
  rw [hq]

/-- C8 witness: a concrete manager state with an empty ready queue panics in
`switch_next`. -/
theorem switch_next_empty_queue_panics_witness :
    ProcessManager.switchNext ⟨[(1, kernelProc)], [], [], 1, 2⟩ ⟨0, 0, 0⟩ 1 =
      SwitchResult.panicked :=
  switch_next_empty_queue_panics ⟨[(1, kernelProc)], [], [], 1, 2⟩ ⟨0, 0, 0⟩ 0 rfl

/-! ## C9: wait_pid on an absent pid -/

/-- C9: calling `wait_pid` with a pid absent from the processes map panics:
`is_proc_alive` returns false for the absent pid, and `get_exit_code` then
`unwrap`s the failed `get_proc` lookup instead of returning an error. -/
theorem wait_pid_absent_pid_panics (m : ProcessManager) (pid : Nat)
    (ctx : ProcessContext) (fuel : Nat)
    (habs : m.processes.lookup pid = none) :
    waitPid m pid ctx fuel = KernResult.panicked := by
  unfold waitPid ProcessManager.isProcAlive ProcessManager.getExitCode
    ProcessManager.getProc
  rw [habs]
  simp

/-- C9 witness: waiting on pid 42, which was never allocated, panics. -/
theorem wait_pid_absent_pid_panics_witness :
    List.lookup 42 [(1, kernelProc), (2, sampleProc)] = none ∧
    waitPid ⟨[(1, kernelProc), (2, sampleProc)], [], [], 2, 3⟩ 42 ⟨0, 0, 0⟩ 5 =
      KernResult.panicked :=
  ⟨by decide,
   wait_pid_absent_pid_panics ⟨[(1, kernelProc), (2, sampleProc)], [], [], 2, 3⟩
     42 ⟨0, 0, 0⟩ 5 (by decide)⟩

/-! ## C10: the Time syscall -/

/-- C10: `sys_time` returns `hour * 3600 + minute * 60 + second` of the UEFI
wall-clock time; for any valid wall-clock reading (hour ≤ 23, minute ≤ 59,
second ≤ 59) the result is strictly below 86400, and the value is not
monotonic across midnight: the reading at 23:59:59 is larger than the later
reading at 00:00:00. -/
theorem sys_time_seconds_of_day (hour minute second : Nat)
    (hh : hour ≤ 23) (hm : minute ≤ 59) (hs : second ≤ 59) :
    sysTime hour minute second < 86400 ∧
    sysTime 0 0 0 < sysTime 23 59 59 := by
  unfold sysTime
  omega

/-- C10 witness: the last second of a day. -/
theorem sys_time_seconds_of_day_witness :
    sysTime 23 59 59 < 86400 ∧ sysTime 0 0 0 < sysTime 23 59 59 :=
  sys_time_seconds_of_day 23 59 59 (by decide) (by decide) (by decide)

/-! ## Association-list helper lemmas -/

theorem lookup_updateProc (ps : List (Nat × ProcessInner)) (pid q : Nat)
    (p : ProcessInner) :
    (updateProc ps pid p).lookup q =
      if q = pid then Option.map (fun _ => p) (ps.lookup q)
      else ps.lookup q := by
  induction ps with
  | nil => by_cases hq : q = pid <;> simp [updateProc, hq]
  | cons kv rest ih =>
    obtain ⟨k, v⟩ := kv
    by_cases hk : k = pid
    · subst hk
      by_cases hq : q = k
      · subst hq
        simp [updateProc, List.lookup_cons]
      · simp [updateProc, List.lookup_cons, beq_false_of_ne hq, hq, ih]
    · by_cases hq : q = k
      · subst hq
        simp [updateProc, hk, List.lookup_cons]
      · simp [updateProc, hk, List.lookup_cons, beq_false_of_ne hq, ih]

theorem lookup_updateProc_self (ps : List (Nat × ProcessInner)) (pid : Nat)
    (p q : ProcessInner) (hp : ps.lookup pid = some q) :
    (updateProc ps pid p).lookup pid = some p := by
  rw [lookup_updateProc, if_pos rfl, hp]
  rfl

theorem lookup_updateProc_other (ps : List (Nat × ProcessInner)) (pid q : Nat)
    (p : ProcessInner) (hne : q ≠ pid) :
    (updateProc ps pid p).lookup q = ps.lookup q := by
  rw [lookup_updateProc, if_neg hne]

/-! ## C2: the effect of kill -/

/-- C2, counterexample.  Killing the live process 2 produces a Dead process
that still holds its `ProcessData`: `ProcessInner::kill` takes the page
table but never takes `proc_data`, so "no ProcessData" fails immediately
after a kill. -/
theorem kill_keeps_proc_data_cex :
    sampleProc.status ≠ ProgramStatus.Dead ∧
    (∃ m2, ProcessManager.kill
        ⟨[(1, kernelProc), (2, sampleProc)], [], [], 2, 3⟩ 2 (-1) = some m2 ∧
      ∃ p2, m2.processes.lookup 2 = some p2 ∧
        p2.status = ProgramStatus.Dead ∧ p2.proc_data ≠ none) := by
  decide

/-- C2, amended.  After `kill` completes on a live process the process is
Dead with `exit_code = Some(ret)` and no page table — but its `ProcessData`
is retained unchanged (only the page table is dropped), and `kill` itself
removes the pid neither from the ready queue nor from the waiters map (nor
from any semaphore waiter list: the semaphore set lives inside the retained
`ProcessData`, which is untouched). -/
theorem kill_amended (m m2 : ProcessManager) (pid : Nat) (ret : Int)
    (p : ProcessInner)
    (hp : m.processes.lookup pid = some p)
    (hlive : p.status ≠ ProgramStatus.Dead)
    (hk : m.kill pid ret = some m2) :
    ∃ p2, m2.processes.lookup pid = some p2 ∧
      p2.status = ProgramStatus.Dead ∧ p2.exit_code = some ret ∧
      p2.page_table = none ∧ p2.proc_data = p.proc_data ∧
      p.proc_data ≠ none ∧
      m2.ready_queue = m.ready_queue ∧
      m2.waiting_processes = m.waiting_processes := by
  unfold ProcessManager.kill ProcessManager.getProc at hk
  simp only [hp, if_neg hlive] at hk
  unfold ProcessInner.kill at hk
  cases hpd : p.proc_data with
  | none => simp only [hpd] at hk; exact Option.noConfusion hk
  | some pd =>
    simp only [hpd] at hk
    cases hseg : pd.stack_segment with
    | none => simp only [hseg] at hk; exact Option.noConfusion hk
    | some seg =>
      simp only [hseg] at hk
      cases hpt : p.page_table with
      | none => simp only [hpt] at hk; exact Option.noConfusion hk
      | some pt =>
        simp only [hpt] at hk
        have hm2 := Option.some.inj hk
        subst hm2
        refine ⟨_, lookup_updateProc_self m.processes pid _ p hp,
          rfl, rfl, rfl, rfl, ?_, rfl, rfl⟩
        exact fun hcontra => Option.noConfusion hcontra

/-- C2 witness: killing the live process 2 in a state with a non-empty ready
queue and waiters map. -/
theorem kill_amended_witness :
    ∃ p2, (ProcessManager.mk
        [(1, kernelProc),
         (2, { sampleProc with status := ProgramStatus.Dead,
                               exit_code := some (-1), page_table := none })]
        [7] [(9, [4])] 2 3).processes.lookup 2 = some p2 ∧
      p2.status = ProgramStatus.Dead ∧ p2.exit_code = some (-1) ∧
      p2.page_table = none ∧ p2.proc_data = sampleProc.proc_data ∧
      sampleProc.proc_data ≠ none ∧
      (ProcessManager.mk
        [(1, kernelProc),
         (2, { sampleProc with status := ProgramStatus.Dead,
                               exit_code := some (-1), page_table := none })]
        [7] [(9, [4])] 2 3).ready_queue =
        (ProcessManager.mk [(1, kernelProc), (2, sampleProc)]
          [7] [(9, [4])] 2 3).ready_queue ∧
      (ProcessManager.mk
        [(1, kernelProc),
         (2, { sampleProc with status := ProgramStatus.Dead,
                               exit_code := some (-1), page_table := none })]
        [7] [(9, [4])] 2 3).waiting_processes =
        (ProcessManager.mk [(1, kernelProc), (2, sampleProc)]
          [7] [(9, [4])] 2 3).waiting_processes :=
  kill_amended
    (ProcessManager.mk [(1, kernelProc), (2, sampleProc)] [7] [(9, [4])] 2 3)
    (ProcessManager.mk
      [(1, kernelProc),
       (2, { sampleProc with status := ProgramStatus.Dead,
                             exit_code := some (-1), page_table := none })]
      [7] [(9, [4])] 2 3)
    2 (-1) sampleProc (by decide) (by decide) (by decide)

/-! ## C7: the child's stack pointer after fork -/

/-- On a successful inner fork the child's saved context is the parent's with
the stack pointer relocated by `childStackTop` and the return register
zeroed, and the child is Ready. -/
theorem forkInner_context_eq (p : ProcessInner) (parentPid : Nat)
    (o : MapOracle) (fuel : Nat) (child : ProcessInner) (bottom count : Nat)
    (hf : p.forkInner parentPid o fuel = some (child, bottom, count)) :
    child.context = (p.context.updateStackFrame
      (childStackTop p.context.stackTop bottom)).setRax 0 ∧
    child.status = ProgramStatus.Ready := by
  unfold ProcessInner.forkInner at hf
  cases hpd : p.proc_data with
  | none => simp [hpd] at hf
  | some pd =>
    simp only [hpd, Option.some_bind] at hf
    cases hpt : p.page_table with
    | none => simp [hpt] at hf
    | some pt =>
      simp only [hpt, Option.some_bind] at hf
      cases hic : p.initChildStack parentPid o fuel with
      | none => simp [hic] at hf
      | some bc =>
        obtain ⟨b, c⟩ := bc
        simp only [hic, Option.some_bind] at hf
        have hinj := Option.some.inj hf
        cases hinj
        exact ⟨rfl, rfl⟩

theorem childStackTop_bits (a b : Nat) :
    childStackTop a b % 2 ^ 32 = a % 2 ^ 32 ∧
    childStackTop a b / 2 ^ 32 = b / 2 ^ 32 := by
  unfold childStackTop
  omega

/-- C7: after a successful fork the child's saved stack pointer is
`(parent_sp & 0xFFFFFFFF) | (child_stack_bottom & !0xFFFFFFFF)`: its low
32 bits equal the parent's, its high 32 bits equal the child stack bottom's,
so the offset inside the 4 GiB (`STACK_MAX_SIZE`-sized) stack slot is
preserved. -/
theorem fork_child_stack_pointer (p : ProcessInner) (parentPid : Nat)
    (o : MapOracle) (fuel : Nat) (child : ProcessInner) (bottom count : Nat)
    (hf : p.forkInner parentPid o fuel = some (child, bottom, count)) :
    child.context.rsp = p.context.rsp % 2 ^ 32 + bottom / 2 ^ 32 * 2 ^ 32 ∧
    child.context.rsp % 2 ^ 32 = p.context.rsp % 2 ^ 32 ∧
    child.context.rsp / 2 ^ 32 = bottom / 2 ^ 32 := by
  have hctx := (forkInner_context_eq p parentPid o fuel child bottom count hf).1
  have hrsp : child.context.rsp = childStackTop p.context.rsp bottom := by
    rw [hctx]; rfl
  rw [hrsp]
  exact ⟨rfl, childStackTop_bits p.context.rsp bottom⟩

/-- C7 witness: forking the pid-2 sample process; the child stack bottom is
`STACK_MAX - 2^32 - PAGE_SIZE` and the stack-pointer bits behave as
stated. -/
theorem fork_child_stack_pointer_witness :
    sampleProc.forkInner 2 MapOracle.allOk 1 =
      some (sampleForkChild, STACK_MAX - 2 ^ 32 - PAGE_SIZE, 1) ∧
    sampleForkChild.context.rsp =
      sampleProc.context.rsp % 2 ^ 32 +
        (STACK_MAX - 2 ^ 32 - PAGE_SIZE) / 2 ^ 32 * 2 ^ 32 ∧
    sampleForkChild.context.rsp % 2 ^ 32 = sampleProc.context.rsp % 2 ^ 32 ∧
    sampleForkChild.context.rsp / 2 ^ 32 =
      (STACK_MAX - 2 ^ 32 - PAGE_SIZE) / 2 ^ 32 :=
  ⟨by decide,
   fork_child_stack_pointer sampleProc 2 MapOracle.allOk 1 sampleForkChild
     (STACK_MAX - 2 ^ 32 - PAGE_SIZE) 1 (by decide)⟩

/-! ## C5: page-fault handling -/

/-- C5, counterexample.  With the faulting address inside the current
process's stack slot, no protection violation, and a mapper that fails
(frame exhaustion), the manager-level handler does not return false: it
panics (the `.expect("")` inside `enlarge_stack`), modelled as `none`. -/
theorem handle_page_fault_cex :
    segIsOnStack ((STACK_MAX - 2 ^ 32 - PAGE_SIZE) / PAGE_SIZE,
        (STACK_MAX - 2 ^ 32 - PAGE_SIZE) / PAGE_SIZE + 1)
      (STACK_MAX - 2 ^ 32 - 2 * PAGE_SIZE) = true ∧
    ProcessManager.handlePageFault
      ⟨[(1, kernelProc), (2, sampleProc)], [], [], 2, 3⟩
      (STACK_MAX - 2 ^ 32 - 2 * PAGE_SIZE) false
      ⟨fun _ _ => false, fun _ _ => true⟩ = none := by
  decide

/-- C5, amended.  The manager-level handler returns false exactly when the
address is off the current process's stack slot or the error code carries
the protection-violation flag; on an in-slot, non-violation fault it grows
the stack and returns true when the mapping succeeds, but panics - rather
than returning false - when the mapping fails.  `Stack::handle_page_fault`
(the vm-variant handler, which sees no error code) returns true iff the
address is on the stack slot and `grow_stack` succeeds. -/
theorem handle_page_fault_amended (m : ProcessManager) (addr : Nat) (pv : Bool)
    (o : MapOracle) (p : ProcessInner) (pd : ProcessData) (seg : Nat × Nat)
    (hp : m.processes.lookup m.current_pid = some p)
    (hpd : p.proc_data = some pd)
    (hseg : pd.stack_segment = some seg) :
    ((¬ segIsOnStack seg addr = true) ∨ pv = true →
      m.handlePageFault addr pv o = some (false, m)) ∧
    (segIsOnStack seg addr = true → pv = false →
      (∀ seg2, enlargeStack m.current_pid seg addr o = some seg2 →
        ∃ m2, m.handlePageFault addr pv o = some (true, m2)) ∧
      (enlargeStack m.current_pid seg addr o = none →
        m.handlePageFault addr pv o = none)) ∧
    (∀ s : Stack, ∀ a : Nat, ∀ og : MapOracle,
      (s.handlePageFault a og).1 = (s.isOnStack a && (s.growStack a og).isSome)) := by
  refine ⟨?_, ?_, ?_⟩
  · intro hcond
    unfold ProcessManager.handlePageFault ProcessManager.getProc
    simp only [hp, hpd, hseg]
    rw [if_pos hcond]
  · intro hon hpv
    have hncond : ¬ ((¬ segIsOnStack seg addr = true) ∨ pv = true) := by
      simp [hon, hpv]
    constructor
    · intro seg2 hgrow
      unfold ProcessManager.handlePageFault ProcessManager.getProc
      simp only [hp, hpd, hseg]
      rw [if_neg hncond, hgrow]
      exact ⟨_, rfl⟩
    · intro hgrow
      unfold ProcessManager.handlePageFault ProcessManager.getProc
      simp only [hp, hpd, hseg]
      rw [if_neg hncond, hgrow]
  · intro s a og
    unfold Stack.handlePageFault
    by_cases hos : s.isOnStack a = true
    · simp only [hos, not_true, if_neg (by simp : ¬ ¬ True)]
      cases hg : s.growStack a og <;> simp [hg, hos]
    · have hos2 : s.isOnStack a = false := by simpa using hos
      simp [hos2]

/-- C5 witness: the same in-slot fault with a succeeding mapper returns true;
an off-slot or protection-violation fault returns false; the stack-level
handler agrees. -/
theorem handle_page_fault_amended_witness :
    ((¬ segIsOnStack ((STACK_MAX - 2 ^ 32 - PAGE_SIZE) / PAGE_SIZE,
          (STACK_MAX - 2 ^ 32 - PAGE_SIZE) / PAGE_SIZE + 1)
        (STACK_MAX - 2 ^ 32 - 2 * PAGE_SIZE) = true) ∨ false = true →
      ProcessManager.handlePageFault
        ⟨[(1, kernelProc), (2, sampleProc)], [], [], 2, 3⟩
        (STACK_MAX - 2 ^ 32 - 2 * PAGE_SIZE) false MapOracle.allOk =
        some (false, ⟨[(1, kernelProc), (2, sampleProc)], [], [], 2, 3⟩)) ∧
    (segIsOnStack ((STACK_MAX - 2 ^ 32 - PAGE_SIZE) / PAGE_SIZE,
          (STACK_MAX - 2 ^ 32 - PAGE_SIZE) / PAGE_SIZE + 1)
        (STACK_MAX - 2 ^ 32 - 2 * PAGE_SIZE) = true → false = false →
      (∀ seg2, enlargeStack 2
          ((STACK_MAX - 2 ^ 32 - PAGE_SIZE) / PAGE_SIZE,
           (STACK_MAX - 2 ^ 32 - PAGE_SIZE) / PAGE_SIZE + 1)
          (STACK_MAX - 2 ^ 32 - 2 * PAGE_SIZE) MapOracle.allOk = some seg2 →
        ∃ m2, ProcessManager.handlePageFault
          ⟨[(1, kernelProc), (2, sampleProc)], [], [], 2, 3⟩
          (STACK_MAX - 2 ^ 32 - 2 * PAGE_SIZE) false MapOracle.allOk =
          some (true, m2)) ∧
      (enlargeStack 2
          ((STACK_MAX - 2 ^ 32 - PAGE_SIZE) / PAGE_SIZE,
           (STACK_MAX - 2 ^ 32 - PAGE_SIZE) / PAGE_SIZE + 1)
          (STACK_MAX - 2 ^ 32 - 2 * PAGE_SIZE) MapOracle.allOk = none →
        ProcessManager.handlePageFault
          ⟨[(1, kernelProc), (2, sampleProc)], [], [], 2, 3⟩
          (STACK_MAX - 2 ^ 32 - 2 * PAGE_SIZE) false MapOracle.allOk = none)) ∧
    (∀ s : Stack, ∀ a : Nat, ∀ og : MapOracle,
      (s.handlePageFault a og).1 = (s.isOnStack a && (s.growStack a og).isSome)) :=
  handle_page_fault_amended
    ⟨[(1, kernelProc), (2, sampleProc)], [], [], 2, 3⟩
    (STACK_MAX - 2 ^ 32 - 2 * PAGE_SIZE) false MapOracle.allOk
    sampleProc samplePD
    ((STACK_MAX - 2 ^ 32 - PAGE_SIZE) / PAGE_SIZE,
     (STACK_MAX - 2 ^ 32 - PAGE_SIZE) / PAGE_SIZE + 1)
    (by decide) (by decide) (by decide)

/-! ## C3: wake_waiting and the ready queue -/

/-- One step of the `wake_waiting` loop on a pid present in the processes
map: write `ret` into its return register, set it Ready, enqueue it. -/
theorem wakeAll_cons_eq (ret : Int) (q : Nat) (rest : List Nat)
    (m : ProcessManager) (pq : ProcessInner)
    (hq : m.processes.lookup q = some pq) :
    wakeAll ret (q :: rest) m =
      wakeAll ret rest
        { m with
          processes := updateProc
            (updateProc m.processes q
              { pq with context := pq.context.setRax (intToUsize ret) }) q
            { pq with context := pq.context.setRax (intToUsize ret),
                      status := ProgramStatus.Ready }
          ready_queue := m.ready_queue ++ [q] } := by
  have hq2 : (updateProc m.processes q
      { pq with context := pq.context.setRax (intToUsize ret) }).lookup q =
      some { pq with context := pq.context.setRax (intToUsize ret) } :=
    lookup_updateProc_self m.processes q _ pq hq
  simp only [wakeAll, ProcessManager.getProc, hq, ProcessManager.wakeUp, hq2,
    ProcessManager.pushReady]

/-- The `wake_waiting` loop never removes a pid from the ready queue. -/
theorem wakeAll_queue_mono (ret : Int) (l : List Nat) :
    ∀ m m2 pid, wakeAll ret l m = some m2 →
      pid ∈ m.ready_queue → pid ∈ m2.ready_queue := by
  induction l with
  | nil =>
    intro m m2 pid h hin
    obtain rfl := Option.some.inj h
    exact hin
  | cons q rest ih =>
    intro m m2 pid h hin
    cases hq : m.processes.lookup q with
    | none =>
      unfold wakeAll ProcessManager.getProc at h
      rw [hq] at h
      exact Option.noConfusion h
    | some pq =>
      rw [wakeAll_cons_eq ret q rest m pq hq] at h
      exact ih _ m2 pid h (by simp [hin])

/-- The `wake_waiting` loop never turns a Ready process into anything else:
every status write in it is to Ready. -/
theorem wakeAll_ready_mono (ret : Int) (l : List Nat) :
    ∀ m m2 pid p, wakeAll ret l m = some m2 →
      m.processes.lookup pid = some p → p.status = ProgramStatus.Ready →
      ∃ p2, m2.processes.lookup pid = some p2 ∧
        p2.status = ProgramStatus.Ready := by
  induction l with
  | nil =>
    intro m m2 pid p h hp hs
    obtain rfl := Option.some.inj h
    exact ⟨p, hp, hs⟩
  | cons q rest ih =>
    intro m m2 pid p h hp hs
    cases hq : m.processes.lookup q with
    | none =>
      unfold wakeAll ProcessManager.getProc at h
      rw [hq] at h
      exact Option.noConfusion h
    | some pq =>
      rw [wakeAll_cons_eq ret q rest m pq hq] at h
      by_cases hpq : pid = q
      · subst hpq
        exact ih _ m2 pid
          { pq with context := pq.context.setRax (intToUsize ret),
                    status := ProgramStatus.Ready } h
          (lookup_updateProc_self _ _ _ _ (lookup_updateProc_self _ _ _ _ hq)) rfl
      · refine ih _ m2 pid p h ?_ hs
        rw [lookup_updateProc_other _ _ _ _ hpq, lookup_updateProc_other _ _ _ _ hpq]
        exact hp

/-- Every pid of the waiter list that `wakeAll` processes ends up Ready and
on the ready queue - regardless of its status before, Dead included. -/
theorem wakeAll_wakes (ret : Int) (l : List Nat) :
    ∀ m m2, wakeAll ret l m = some m2 → ∀ pid, pid ∈ l →
      ∃ p2, m2.processes.lookup pid = some p2 ∧
        p2.status = ProgramStatus.Ready ∧ pid ∈ m2.ready_queue := by
  induction l with
  | nil =>
    intro m m2 h pid hpid
    cases hpid
  | cons q rest ih =>
    intro m m2 h pid hpid
    cases hq : m.processes.lookup q with
    | none =>
      unfold wakeAll ProcessManager.getProc at h
      rw [hq] at h
      exact Option.noConfusion h
    | some pq =>
      rw [wakeAll_cons_eq ret q rest m pq hq] at h
      rcases List.mem_cons.mp hpid with rfl | hmem
      · have hlook :=
          lookup_updateProc_self
            (updateProc m.processes pid
              { pq with context := pq.context.setRax (intToUsize ret) }) pid
            { pq with context := pq.context.setRax (intToUsize ret),
                      status := ProgramStatus.Ready }
            { pq with context := pq.context.setRax (intToUsize ret) }
            (lookup_updateProc_self m.processes pid _ pq hq)
        obtain ⟨p2, hp2, hs2⟩ := wakeAll_ready_mono ret rest _ m2 pid _ h hlook rfl
        have hqueue := wakeAll_queue_mono ret rest _ m2 pid h (by simp)
        exact ⟨p2, hp2, hs2, hqueue⟩
      · exact ih _ m2 h pid hmem

/-- C3, counterexample.  A Dead process (pid 2, already killed: Dead, exit
code recorded, page table dropped) sits in the waiter set of the current
pid 1.  `wake_waiting` has no status check: it sets the Dead waiter's status
to Ready and pushes its pid onto the ready queue, so afterwards a Dead-born
pid is in the ready queue and its status was changed - refuting both the
"never re-enqueues" and the "nor changes the status" parts, and putting a
process on the queue that was Dead a moment before. -/
theorem wake_waiting_dead_waiter_cex :
    deadProc.status = ProgramStatus.Dead ∧
    (2 : Nat) ∈ [2] ∧
    ProcessManager.wakeWaiting ⟨[(1, kernelProc), (2, deadProc)], [], [(1, [2])], 1, 3⟩ 0 =
      some ⟨[(1, kernelProc),
             (2, { deadProc with status := ProgramStatus.Ready })], [2], [], 1, 3⟩ ∧
    ({ deadProc with status := ProgramStatus.Ready }).status ≠ ProgramStatus.Dead := by
  decide

/-- C3, amended.  `wake_waiting` wakes every waiter of the current pid
unconditionally: each pid of the removed waiter set - even one whose status
is already Dead - has status Ready afterwards and appears in the ready
queue.  (`switch_next` skips non-Ready pids when popping, but re-enqueues
them at the back instead of dropping them.) -/
theorem wake_waiting_amended (m m2 : ProcessManager) (ret : Int)
    (ws : List Nat) (pid : Nat)
    (hws : m.waiting_processes.lookup m.current_pid = some ws)
    (hpid : pid ∈ ws)
    (hw : m.wakeWaiting ret = some m2) :
    ∃ p2, m2.processes.lookup pid = some p2 ∧
      p2.status = ProgramStatus.Ready ∧ pid ∈ m2.ready_queue := by
  unfold ProcessManager.wakeWaiting at hw
  rw [hws] at hw
  exact wakeAll_wakes ret ws _ m2 hw pid hpid

/-- C3 witness: waking the Dead waiter 2 of current pid 1 leaves it Ready
and enqueued. -/
theorem wake_waiting_amended_witness :
    ∃ p2, (ProcessManager.mk
        [(1, kernelProc), (2, { deadProc with status := ProgramStatus.Ready })]
        [2] [] 1 3).processes.lookup 2 = some p2 ∧
      p2.status = ProgramStatus.Ready ∧
      (2 : Nat) ∈ (ProcessManager.mk
        [(1, kernelProc), (2, { deadProc with status := ProgramStatus.Ready })]
        [2] [] 1 3).ready_queue :=
  wake_waiting_amended
    ⟨[(1, kernelProc), (2, deadProc)], [], [(1, [2])], 1, 3⟩
    ⟨[(1, kernelProc), (2, { deadProc with status := ProgramStatus.Ready })],
     [2], [], 1, 3⟩
    0 [2] 2 (by decide) (by decide) (by decide)

/-! ## C6: fork -/

theorem lookup_append_left (ps qs : List (Nat × ProcessInner)) (k : Nat)
    (v : ProcessInner) (h : ps.lookup k = some v) :
    (ps ++ qs).lookup k = some v := by
  induction ps with
  | nil => simp at h
  | cons kv rest ih =>
    obtain ⟨k1, v1⟩ := kv
    by_cases hk : k = k1
    · subst hk
      simp [List.lookup_cons] at h ⊢
      exact h
    · simp only [List.cons_append, List.lookup_cons, beq_false_of_ne hk] at h ⊢
      exact ih h

theorem lookup_append_right (ps qs : List (Nat × ProcessInner)) (k : Nat)
    (h : ps.lookup k = none) : (ps ++ qs).lookup k = qs.lookup k := by
  induction ps with
  | nil => simp
  | cons kv rest ih =>
    obtain ⟨k1, v1⟩ := kv
    by_cases hk : k = k1
    · subst hk
      simp [List.lookup_cons] at h
    · simp only [List.cons_append, List.lookup_cons, beq_false_of_ne hk] at h ⊢
      exact ih h

theorem lookup_insertProc_self (ps : List (Nat × ProcessInner)) (k : Nat)
    (v : ProcessInner) : (insertProc ps k v).lookup k = some v := by
  unfold insertProc
  cases hk : ps.lookup k with
  | none =>
    rw [lookup_append_right ps _ k hk]
    simp [List.lookup_cons]
  | some q => exact lookup_updateProc_self ps k v q hk

theorem lookup_insertProc_other (ps : List (Nat × ProcessInner)) (k q : Nat)
    (v : ProcessInner) (hne : q ≠ k) :
    (insertProc ps k v).lookup q = ps.lookup q := by
  unfold insertProc
  cases hk : ps.lookup k with
  | none =>
    cases hq : ps.lookup q with
    | none =>
      rw [lookup_append_right ps _ q hq]
      simp [List.lookup_cons, beq_false_of_ne hne]
    | some r => exact lookup_append_left ps _ q r hq
  | some r => exact lookup_updateProc_other ps k q v hne

/-- `save_current` on a live current process: tick, copy the frame, pause. -/
theorem saveCurrent_eq_live (m : ProcessManager) (ctx : ProcessContext)
    (p : ProcessInner) (hp : m.processes.lookup m.current_pid = some p)
    (hrun : p.status ≠ ProgramStatus.Dead) :
    m.saveCurrent ctx = some (m.current_pid,
      { m with processes := (updateProc m.processes m.current_pid
          { p with ticks_passed := p.ticks_passed + 1, context := ctx,
                   status := ProgramStatus.Ready }) }) := by
  unfold ProcessManager.saveCurrent ProcessManager.getProc ProcessInner.save
  rw [hp]
  simp [hrun]

/-- C6, counterexample.  Fork of the pid-2 sample process, with the mapper
reporting a collision at the first probed child-stack location (the parent's
own already-mapped slot).  The child's saved context is NOT the parent's
with only the return register changed: its stack pointer was relocated into
the child's slot as well (process.rs 389-391), so it differs from the
parent's. -/
theorem fork_child_context_cex :
    sampleProc.forkInner 2 collideOracle 2 =
      some (⟨"sh", some 2, [], 0, ProgramStatus.Ready, none,
             ⟨0, 70360154243064, 99⟩, some ⟨6⟩,
             some ⟨[], [0, 1, 2], 2, [], some (17177772031, 17177772032)⟩⟩,
            70360154238976, 1) ∧
    (⟨0, 70360154243064, 99⟩ : ProcessContext) ≠ sampleProc.context.setRax 0 ∧
    (⟨0, 70360154243064, 99⟩ : ProcessContext).rax = 0 ∧
    (⟨0, 70360154243064, 99⟩ : ProcessContext).rest = sampleProc.context.rest ∧
    (⟨0, 70360154243064, 99⟩ : ProcessContext).rsp ≠ sampleProc.context.rsp := by
  decide

/-- C6, amended.  A Fork on a live parent produces a Ready child whose saved
context equals the parent's saved frame except for the return register
(0 in the child, the child's pid in the parent) AND the stack pointer, which
is relocated into the child's stack slot (low 32 bits kept, high 32 bits
from the child stack bottom); the Fork syscall then enqueues the child's and
the parent's pids (in that order) before switching. -/
theorem fork_syscall_amended (m m3 : ProcessManager) (ctx : ProcessContext)
    (o : MapOracle) (fuel : Nat) (pid childPid : Nat) (p : ProcessInner)
    (hp : m.processes.lookup m.current_pid = some p)
    (hrun : p.status ≠ ProgramStatus.Dead)
    (hne : m.current_pid ≠ m.next_pid)
    (hf : forkPrepare m ctx o fuel = some (m3, pid, childPid)) :
    pid = m.current_pid ∧ childPid = m.next_pid ∧
    (∃ child bottom, m3.processes.lookup childPid = some child ∧
      child.status = ProgramStatus.Ready ∧
      child.context = (ctx.updateStackFrame
        (childStackTop ctx.stackTop bottom)).setRax 0 ∧
      child.context.rax = 0 ∧ child.context.rest = ctx.rest) ∧
    (∃ par, m3.processes.lookup pid = some par ∧
      par.context = ctx.setRax childPid) ∧
    childPid ∈ m3.ready_queue ∧ pid ∈ m3.ready_queue := by
  unfold forkPrepare at hf
  rw [saveCurrent_eq_live m ctx p hp hrun] at hf
  simp only [Option.bind_eq_bind, Option.some_bind] at hf
  unfold ProcessManager.managerFork at hf
  have hps : (updateProc m.processes m.current_pid
      { p with ticks_passed := p.ticks_passed + 1, context := ctx,
               status := ProgramStatus.Ready }).lookup m.current_pid =
      some { p with ticks_passed := p.ticks_passed + 1, context := ctx,
                    status := ProgramStatus.Ready } :=
    lookup_updateProc_self _ _ _ p hp
  simp only [ProcessManager.getProc, hps, Option.bind_eq_bind, Option.some_bind] at hf
  unfold processFork at hf
  cases hfi : ProcessInner.forkInner
      { p with ticks_passed := p.ticks_passed + 1, context := ctx,
               status := ProgramStatus.Ready } m.current_pid o fuel with
  | none =>
    simp only [hfi, Option.bind_eq_bind, Option.none_bind] at hf
    exact Option.noConfusion hf
  | some cbc =>
    obtain ⟨childInner, bottom, count⟩ := cbc
    simp only [hfi, Option.bind_eq_bind, Option.some_bind,
      ProcessManager.pushReady] at hf
    have hinj := Option.some.inj hf
    cases hinj
    obtain ⟨hctx, _hst⟩ := forkInner_context_eq _ m.current_pid o fuel
      childInner bottom count hfi
    refine ⟨rfl, rfl, ?_, ?_, ?_, ?_⟩
    · refine ⟨{ childInner with status := ProgramStatus.Ready }, bottom,
        lookup_insertProc_self _ _ _, rfl, hctx, ?_, ?_⟩
      · show childInner.context.rax = 0
        rw [hctx]
        rfl
      · show childInner.context.rest = ctx.rest
        rw [hctx]
        rfl
    · refine ⟨({ p with
          children := p.children ++ [m.next_pid],
          ticks_passed := p.ticks_passed + 1,
          status := ProgramStatus.Ready,
          context := ctx.setRax m.next_pid }), ?_, rfl⟩
      rw [lookup_insertProc_other _ _ _ _ hne]
      exact lookup_updateProc_self _ _ _ _ hps
    · simp
    · simp

/-- C6 witness: the Fork syscall of the pid-2 sample process (frame
`sampleContext`), with a mapper that accepts the first probe. -/
theorem fork_syscall_amended_witness :
    (2 : Nat) = (ProcessManager.mk [(1, kernelProc), (2, sampleProc)] [] [] 2 3).current_pid ∧
    (3 : Nat) = (ProcessManager.mk [(1, kernelProc), (2, sampleProc)] [] [] 2 3).next_pid ∧
    (∃ child bottom, sampleForkManager.processes.lookup 3 = some child ∧
      child.status = ProgramStatus.Ready ∧
      child.context = (sampleContext.updateStackFrame
        (childStackTop sampleContext.stackTop bottom)).setRax 0 ∧
      child.context.rax = 0 ∧ child.context.rest = sampleContext.rest) ∧
    (∃ par, sampleForkManager.processes.lookup 2 = some par ∧
      par.context = sampleContext.setRax 3) ∧
    (3 : Nat) ∈ sampleForkManager.ready_queue ∧
    (2 : Nat) ∈ sampleForkManager.ready_queue :=
  fork_syscall_amended
    ⟨[(1, kernelProc), (2, sampleProc)], [], [], 2, 3⟩ sampleForkManager
    sampleContext MapOracle.allOk 2 2 3 sampleProc
    (by decide) (by decide) (by decide) (by decide)

end YSOS
